import Mathlib

/-!
Verification of the tickstamp accumulator
(`drivers/misc/mediatek/rtc/mtk_rtc_tickstamp.c`).

The module keeps a persisted drift counter `g_stamp.epoch` (a C `long`,
64-bit), folds ticker deltas into it (`ts_stamp`), persists it through a
deferred write worker (`ts_set` / `ts_write_stamp`), and recovers it at
startup through a deferred read worker (`ts_read_stamp`) that validates the
persisted value against the live ticker.

Machine integers are embedded as `Nat` bit patterns reduced modulo `2 ^ 64`
(`unsigned long` / `long`) or `2 ^ 32` (`unsigned int`), with `toSigned`
giving the two-complement reading of a 64-bit pattern.  File system, ticker
callback and work queue are environment parameters.
-/

namespace Tickstamp

/-- Width of `unsigned long` / `long` on the 64-bit target: `2 ^ 64`. -/
def W : Nat := 2 ^ 64

/-- The signed-overflow boundary of `long`: `2 ^ 63`. -/
def HALF : Nat := 2 ^ 63

/-- `#define INFINITY ((unsigned int)-1)`: the all-ones 32-bit pattern. -/
def INFINITY : Nat := 2 ^ 32 - 1

/-- Two-complement reading of a 64-bit pattern as a C `long`. -/
def toSigned (n : Nat) : Int :=
  if n % W < HALF then ((n % W : Nat) : Int) else ((n % W : Nat) : Int) - (W : Int)

/-- `struct tick_stamp`: one signed 64-bit field `epoch`, kept as its bit
pattern. -/
structure tick_stamp where
  epoch : Nat
deriving DecidableEq, Repr

/-- `count_down(value, delta)` (the caller always passes a valid pointer):
returns the continue flag and the updated counter.  Source order: zero or
insufficient counter stops; the `INFINITY` sentinel continues without
decrement; otherwise decrement and continue while nonzero. -/
def count_down (value : Nat) (delta : Nat) : Bool × Nat :=
  if value = 0 ∨ value < delta then (false, value)
  else if value = INFINITY then (true, value)
  else (value - delta != 0, value - delta)

/-- The retry loop of `wait_vfsmount`: `avail i` is whether the `kern_path`
attempt number `i` succeeds.  `fuel` bounds the number of loop iterations we
unfold; `none` means the fuel ran out (the loop is still running). -/
def wv_loop (avail : Nat → Bool) (i : Nat) (count : Nat) : Nat → Option Bool
  | 0 => none
  | fuel + 1 =>
    let r := count_down count 1
    if r.1 = false then some false
    else if avail i then some true
    else wv_loop avail (i + 1) r.2 fuel

/-- `wait_vfsmount(dir_name, trigger_interval, retrigger_count)`.
`dir_name_null` models a NULL `dir_name`; the sleep interval has no
functional effect and is dropped. -/
def wait_vfsmount (dir_name_null : Bool) (avail : Nat → Bool) (retrigger_count : Nat)
  (fuel : Nat) : Option Bool :=
  if dir_name_null then some false else wv_loop avail 0 retrigger_count fuel

/-- `ts_stamp(tick)`: `ticker_read` is the value `g_ticker_fn()` returns at
this call, `none` when no ticker source is registered (the call is then a
no-op).  `delta = (long)(g_ticker_fn() - tick)` is unsigned 64-bit
subtraction; `g_stamp.epoch += delta` wraps modulo `2 ^ 64`. -/
def ts_stamp (ticker_read : Option Nat) (tick : Nat) (g : tick_stamp) : tick_stamp :=
  match ticker_read with
  | none => g
  | some t => ⟨(g.epoch + ((t % W + W - tick % W) % W)) % W⟩

/-- Modelled from the spec: the task-submission contract
(`submit(task) -> bool`, the `schedule_work` facility, absent from src).
Per the spec the returned boolean is whether submission of the task
succeeded, so we pass that success bit through. -/
def schedule_work (submit_ok : Bool) : Bool := submit_ok

/-- `ts_work_run(ts_work)`: NULL work yields false, otherwise the result of
`schedule_work`. -/
def ts_work_run (ts_work_null : Bool) (submit_ok : Bool) : Bool :=
  if ts_work_null then false else schedule_work submit_ok

/-- `ts_set()`: `return ts_work_run(&ts_write_work) == 0;` — the boolean
result of `ts_work_run` compared against 0 (false). -/
def ts_set (submit_ok : Bool) : Bool :=
  ts_work_run false submit_ok == false

/-- `get_stamp(stamp)`: writes the global stamp through the pointer unless
it is NULL.  The cell argument is the pointed-to memory before the call
(`none` = NULL pointer); the result is that memory after the call. -/
def get_stamp (g : tick_stamp) (stamp_cell : Option tick_stamp) : Option tick_stamp :=
  match stamp_cell with
  | none => none
  | some _ => some g

/-- `ts_get(epoch)`: copies the global stamp into a local through
`get_stamp`, then writes its `epoch` through the out pointer unless that is
NULL.  Returns the out cell after the call and the (unchanged) global
stamp. -/
def ts_get (g : tick_stamp) (epoch_cell : Option Int) : Option Int × tick_stamp :=
  match epoch_cell with
  | none => (none, g)
  | some _ =>
    match get_stamp g (some ⟨0⟩) with
    | none => (epoch_cell, g)
    | some stamp => (some (toSigned stamp.epoch), g)

/-- Environment of one `ts_read_stamp` run: whether the mount wait
succeeded, whether `ts_open` succeeded, the `vfs_read` return value, the
content of `g_stamp` right after the read call, and the ticker callback
(`none` when unregistered; its argument counts the ticker calls already
made in this run, so the value returned may differ between calls). -/
structure recovery_env where
  mount_ok : Bool
  open_ok : Bool
  read_size : Int
  read_stamp : tick_stamp
  ticker : Option (Nat → Nat)

/-- The value the ticker returns at its `k`-th call of this run, if a
ticker is registered. -/
def ticker_read (ticker : Option (Nat → Nat)) (k : Nat) : Option Nat :=
  ticker.map (fun f => f k)

/-- `ts_read_stamp`: returns the final `g_stamp` and whether the write
worker was submitted (`ts_stamp(tick); ts_set()` fallback ran).  Paths, in
source order: failed mount wait and failed open leave `size = -EIO` and
`tick = 0` and fall back over the unchanged stamp; a negative read falls
back over whatever the read left in `g_stamp`; with a registered ticker a
persisted epoch greater (as `long`) than the ticker reading is discarded
(`epoch = 0`, `size = -EINVAL`) and the fallback stamps with the reading as
reference; otherwise the read-in stamp is kept and nothing is scheduled. -/
def ts_read_stamp (env : recovery_env) (g0 : tick_stamp) : tick_stamp × Bool :=
  if env.mount_ok = false then
    (ts_stamp (ticker_read env.ticker 0) 0 g0, true)
  else if env.open_ok = false then
    (ts_stamp (ticker_read env.ticker 0) 0 g0, true)
  else if env.read_size < 0 then
    (ts_stamp (ticker_read env.ticker 0) 0 env.read_stamp, true)
  else
    match env.ticker with
    | none => (env.read_stamp, false)
    | some f =>
      if toSigned (f 0) < toSigned env.read_stamp.epoch then
        (ts_stamp (some (f 1)) (f 0) ⟨0⟩, true)
      else
        (env.read_stamp, false)

/-- A finite run of `ts_stamp` calls with a registered ticker: entry `i` of
`calls` is the pair (value the ticker returns during call `i`, reference
tick `r_i` passed to the call). -/
def stamps (calls : List (Nat × Nat)) (g : tick_stamp) : tick_stamp :=
  calls.foldl (fun g c => ts_stamp (some c.1) c.2 g) g

/-- The exact (unbounded integer) sum of the per-call differences
`ticker_i - r_i`. -/
def sum_deltas (calls : List (Nat × Nat)) : Int :=
  (calls.map (fun c => (c.1 : Int) - (c.2 : Int))).sum

/-!
Interleaving machine for concurrent `ts_stamp` calls.  `ts_stamp` takes no
lock; its update `g_stamp.epoch += delta` is a load of the shared `epoch`
followed by a store of `loaded + delta`, and two contexts may interleave
those micro-steps arbitrarily.
-/

/-- The two execution contexts of a pair of concurrent `ts_stamp` calls. -/
inductive tid where
  | t1 : tid
  | t2 : tid
deriving DecidableEq, Repr

/-- Progress of one `ts_stamp` call through `g_stamp.epoch += delta`:
`loaded` is the shared value it has read (`none` before the load),
`done` is set once it has stored back. -/
structure task_state where
  loaded : Option Nat
  done : Bool
deriving DecidableEq, Repr

/-- A task that has not run yet. -/
def task_init : task_state := ⟨none, false⟩

/-- One micro-step of a `ts_stamp` call with delta pattern `delta` on
shared epoch `g`: first the load, then the store (modulo `2 ^ 64`); a
finished task leaves the state alone. -/
def stamp_step (delta : Nat) (g : Nat) (s : task_state) : Nat × task_state :=
  match s.loaded, s.done with
  | none, _ => (g, ⟨some g, false⟩)
  | some e, false => ((e + delta % W) % W, ⟨some e, true⟩)
  | some _, true => (g, s)

/-- Run two concurrent `ts_stamp` calls (delta patterns `d1`, `d2`) under
the schedule `sched`, starting from shared epoch `g`; returns the final
shared epoch and both task states. -/
def run_stamps (d1 d2 : Nat) : List tid → Nat → task_state → task_state →
    Nat × task_state × task_state
  | [], g, s1, s2 => (g, s1, s2)
  | tid.t1 :: rest, g, s1, s2 =>
    let p := stamp_step d1 g s1
    run_stamps d1 d2 rest p.1 p.2 s2
  | tid.t2 :: rest, g, s1, s2 =>
    let p := stamp_step d2 g s2
    run_stamps d1 d2 rest p.1 s1 p.2

/-! ## Helper lemmas -/

lemma W_eq : W = 18446744073709551616 := by norm_num [W]

lemma HALF_eq : HALF = 9223372036854775808 := by norm_num [HALF]

/-- `toSigned n` and `n` agree modulo `2 ^ 64`. -/
lemma toSigned_emod (n : Nat) : toSigned n % (W : Int) = (n : Int) % (W : Int) := by
  simp only [toSigned, W_eq, HALF_eq]
  split <;> omega

/-- One `ts_stamp` call moves the signed epoch by exactly `t - r`, modulo
`2 ^ 64`. -/
lemma ts_stamp_some_emod (t r e : Nat) :
    toSigned (ts_stamp (some t) r ⟨e⟩).epoch % (W : Int)
      = (toSigned e + ((t : Int) - (r : Int))) % (W : Int) := by
  show toSigned ((e + ((t % W + W - r % W) % W)) % W) % (W : Int) = _
  simp only [toSigned, W_eq, HALF_eq]
  split <;> split <;> omega

/-- Recovery accepts a persisted record whose signed epoch is at most the
ticker reading: the record is installed and no persist is scheduled. -/
lemma ts_read_stamp_accept (g0 : tick_stamp) (E : Nat) (f : Nat → Nat) (sz : Int)
    (hsz : 0 ≤ sz) (hle : toSigned E ≤ toSigned (f 0)) :
    ts_read_stamp ⟨true, true, sz, ⟨E⟩, some f⟩ g0 = (⟨E⟩, false) := by
  simp only [ts_read_stamp]
  norm_num
  rw [if_neg (not_lt.mpr hsz), if_neg (not_lt.mpr hle)]

/-- Recovery rejects a persisted record whose signed epoch exceeds the
ticker reading: the epoch is reset to 0, one `ts_stamp` call with the
reading as reference is folded in, and a persist is scheduled. -/
lemma ts_read_stamp_reject (g0 : tick_stamp) (E : Nat) (f : Nat → Nat) (sz : Int)
    (hsz : 0 ≤ sz) (hgt : toSigned (f 0) < toSigned E) :
    ts_read_stamp ⟨true, true, sz, ⟨E⟩, some f⟩ g0
      = (ts_stamp (some (f 1)) (f 0) ⟨0⟩, true) := by
  simp only [ts_read_stamp]
  norm_num
  rw [if_neg (not_lt.mpr hsz), if_pos hgt]

/-- A budget of at least 2 lets `count_down` continue. -/
lemma count_down_two_le (n : Nat) (h2 : 2 ≤ n) : (count_down n 1).1 = true := by
  unfold count_down
  rw [if_neg (by omega)]
  split
  · rfl
  · simp only [bne_iff_ne, ne_eq, decide_eq_true_eq]
    omega

/-- A finite budget of at least 2 is decremented by `count_down`. -/
lemma count_down_finite (n : Nat) (h2 : 2 ≤ n) (hfin : n ≠ INFINITY) :
    count_down n 1 = (true, n - 1) := by
  unfold count_down
  rw [if_neg (by omega), if_neg hfin]
  simp only [Prod.mk.injEq, and_true]
  simp only [bne_iff_ne, ne_eq, decide_eq_true_eq]
  omega

/-- When the retry loop with a finite budget returns false, every attempt
it performed (attempts `i` to `i + n - 2`) failed. -/
lemma wv_loop_false_all_fail (avail : Nat → Bool) :
    ∀ (fuel n i : Nat), n < INFINITY → wv_loop avail i n fuel = some false →
      ∀ j, j + 1 < n → avail (i + j) = false := by
  intro fuel
  induction fuel with
  | zero =>
    intro n i _ h
    simp [wv_loop] at h
  | succ fu ih =>
    intro n i hn h j hj
    by_cases hsmall : n ≤ 1
    · omega
    · push_neg at hsmall
      have hr : count_down n 1 = (true, n - 1) := count_down_finite n hsmall (by omega)
      unfold wv_loop at h
      rw [hr] at h
      simp only [if_neg (by decide : ¬(true = false))] at h
      by_cases ha : avail i = true
      · rw [if_pos ha] at h
        exact absurd h (by decide)
      · have ha2 : avail i = false := by
          cases hv : avail i
          · rfl
          · exact absurd hv ha
        rw [if_neg (by simp [ha2])] at h
        match j with
        | 0 => simpa using ha2
        | k + 1 =>
          have := ih (n - 1) (i + 1) (by omega) h k (by omega)
          have harg : i + (k + 1) = i + 1 + k := by omega
          rw [harg]
          exact this

/-! ## Claims -/

/-- Claim C1 (code_bug): the spec says `ts_set` returns whether submitting
the persist worker succeeded, but `ts_set` returns
`ts_work_run(&ts_write_work) == 0`, the negation of the submission result:
it yields false when submission succeeded and true when it failed.  This
theorem evaluates the embedded `ts_set` at both submission outcomes. -/
theorem C1_ts_set_success_inverted : ts_set true = false ∧ ts_set false = true := by decide

/-- Claim C2, counterexample: one `stamp(0)` call during which the ticker
reads `2 ^ 63` leaves the signed epoch at `-2 ^ 63`, not at the exact
integer sum `2 ^ 63`, so exact equality with the sum of differences
fails. -/
theorem C2_exact_sum_fails :
    toSigned (stamps [(2 ^ 63, 0)] ⟨0⟩).epoch ≠ toSigned 0 + sum_deltas [(2 ^ 63, 0)] := by
  decide

/-- Claim C2 (amended): after any finite sequence of `stamp(r_i)` calls
with a registered ticker, the signed epoch is congruent modulo `2 ^ 64` to
the initial signed epoch plus the sum over i of (ticker reading at call i)
minus `r_i`, in call order. -/
theorem C2_stamp_sum_congruence (e0 : Nat) (calls : List (Nat × Nat)) :
    Int.ModEq (W : Int) (toSigned (stamps calls ⟨e0⟩).epoch)
      (toSigned e0 + sum_deltas calls) := by
  induction calls generalizing e0 with
  | nil =>
    simp [stamps, sum_deltas]
  | cons c rest ih =>
    have hstep : Int.ModEq (W : Int) (toSigned (ts_stamp (some c.1) c.2 ⟨e0⟩).epoch)
        (toSigned e0 + ((c.1 : Int) - (c.2 : Int))) := ts_stamp_some_emod c.1 c.2 e0
    have hrec := ih (ts_stamp (some c.1) c.2 ⟨e0⟩).epoch
    have hcons : stamps (c :: rest) ⟨e0⟩ = stamps rest (ts_stamp (some c.1) c.2 ⟨e0⟩) := rfl
    have hsum : sum_deltas (c :: rest) = ((c.1 : Int) - (c.2 : Int)) + sum_deltas rest := by
      simp [sum_deltas]
    rw [hcons, hsum]
    calc toSigned (stamps rest (ts_stamp (some c.1) c.2 ⟨e0⟩)).epoch
        ≡ toSigned (ts_stamp (some c.1) c.2 ⟨e0⟩).epoch + sum_deltas rest [ZMOD (W : Int)] :=
          hrec
      _ ≡ (toSigned e0 + ((c.1 : Int) - (c.2 : Int))) + sum_deltas rest [ZMOD (W : Int)] :=
          Int.ModEq.add_right _ hstep
      _ = toSigned e0 + (((c.1 : Int) - (c.2 : Int)) + sum_deltas rest) := by ring

/-- Claim C3 (confirmed): when recovery opens and reads a record with epoch
`E` successfully and the registered ticker reads a value whose signed
reading is at least that of `E`, the live accumulator afterwards holds
exactly `E` and no persist is scheduled. -/
theorem C3_recovery_roundtrip (g0 : tick_stamp) (E : Nat) (f : Nat → Nat) (sz : Int)
    (hsz : 0 ≤ sz) (hle : toSigned E ≤ toSigned (f 0)) :
    ts_read_stamp ⟨true, true, sz, ⟨E⟩, some f⟩ g0 = (⟨E⟩, false) :=
  ts_read_stamp_accept g0 E f sz hsz hle

/-- Claim C3, witness: record epoch 5, ticker reading 7. -/
theorem C3_recovery_roundtrip_witness :
    (0 : Int) ≤ 8 ∧ toSigned 5 ≤ toSigned 7 ∧
      ts_read_stamp ⟨true, true, 8, ⟨5⟩, some (fun _ => 7)⟩ ⟨0⟩ = (⟨5⟩, false) :=
  ⟨by decide, by decide, C3_recovery_roundtrip ⟨0⟩ 5 (fun _ => 7) 8 (by decide) (by decide)⟩

/-- Claim C4 (confirmed): when recovery reads a record with epoch `E`
successfully but the ticker reading `T = f 0` is (signed) below `E`,
recovery discards `E`, resets the live epoch to 0, folds exactly one
`stamp(T)` call into it and schedules the persist worker. -/
theorem C4_ticker_regression_reconstruct (g0 : tick_stamp) (E : Nat) (f : Nat → Nat) (sz : Int)
    (hsz : 0 ≤ sz) (hgt : toSigned (f 0) < toSigned E) :
    ts_read_stamp ⟨true, true, sz, ⟨E⟩, some f⟩ g0
      = (ts_stamp (some (f 1)) (f 0) ⟨0⟩, true) :=
  ts_read_stamp_reject g0 E f sz hsz hgt

/-- Claim C4, witness: record epoch 10, ticker reading 5 at validation and
7 inside the fallback stamp. -/
theorem C4_ticker_regression_reconstruct_witness :
    (0 : Int) ≤ 8 ∧ toSigned 5 < toSigned 10 ∧
      ts_read_stamp ⟨true, true, 8, ⟨10⟩, some (fun k => if k = 0 then 5 else 7)⟩ ⟨0⟩
        = (ts_stamp (some 7) 5 ⟨0⟩, true) :=
  ⟨by decide, by decide,
    C4_ticker_regression_reconstruct ⟨0⟩ 10 (fun k => if k = 0 then 5 else 7) 8
      (by decide) (by decide)⟩

/-- Claim C5, counterexample: from live epoch 0 with ticker readings 5 then
7, the regression case (record epoch 10 rejected) ends at epoch 2 while the
absent-store case ends at epoch 5: both schedule a persist, but the
resulting accumulator states differ, so recovery on an absent store is not
identical to the ticker-regression case. -/
theorem C5_state_differs_from_regression :
    (ts_read_stamp ⟨true, true, 8, ⟨10⟩, some (fun k => if k = 0 then 5 else 7)⟩ ⟨0⟩).2 = true
    ∧ (ts_read_stamp ⟨true, false, -5, ⟨0⟩, some (fun k => if k = 0 then 5 else 7)⟩ ⟨0⟩).2 = true
    ∧ (ts_read_stamp ⟨true, true, 8, ⟨10⟩, some (fun k => if k = 0 then 5 else 7)⟩ ⟨0⟩).1
      ≠ (ts_read_stamp ⟨true, false, -5, ⟨0⟩, some (fun k => if k = 0 then 5 else 7)⟩ ⟨0⟩).1 := by
  decide

/-- Claim C5 (amended): when the open of the backing path fails, recovery
takes the same reconstruct-and-persist fallback as the regression case —
one `ts_stamp` call and a scheduled persist — but with reference tick 0 and
without resetting the prior live accumulator, so the resulting state
generally differs from the regression case. -/
theorem C5_absent_store_fallback (g0 rs : tick_stamp) (sz : Int) (tk : Option (Nat → Nat)) :
    ts_read_stamp ⟨true, false, sz, rs, tk⟩ g0 = (ts_stamp (ticker_read tk 0) 0 g0, true) := rfl

/-- Claim C6, counterexample: a read that returns 0 of the 8 record bytes
is not treated as a failure: with a plausible stamp the recovery run
accepts it and schedules nothing. -/
theorem C6_short_read_accepted :
    ts_read_stamp ⟨true, true, 0, ⟨0⟩, some (fun _ => 0)⟩ ⟨0⟩ = (⟨0⟩, false)
    ∧ (0 : Int) < 8 := by decide

/-- Claim C6 (amended): only a negative read result is treated as a read
failure and triggers the reconstruct-and-persist fallback; any
non-negative result, short included, is handled exactly like a full
read. -/
theorem C6_negative_read_only_failure (g0 rs : tick_stamp) (sz : Int) (tk : Option (Nat → Nat)) :
    (sz < 0 →
      ts_read_stamp ⟨true, true, sz, rs, tk⟩ g0 = (ts_stamp (ticker_read tk 0) 0 rs, true))
    ∧ (0 ≤ sz →
      ts_read_stamp ⟨true, true, sz, rs, tk⟩ g0 = ts_read_stamp ⟨true, true, 8, rs, tk⟩ g0) := by
  constructor
  · intro h
    simp only [ts_read_stamp]
    norm_num [h]
  · intro h
    simp only [ts_read_stamp]
    norm_num [not_lt.mpr h]

/-- Claim C7, counterexample: with a finite budget of 1 and a path whose
first resolution attempt would succeed, `wait_vfsmount` performs no attempt
and returns false, because `count_down` decrements before testing. -/
theorem C7_single_budget_returns_false :
    wait_vfsmount false (fun _ => true) 1 10 = some false
    ∧ (fun _ : Nat => true) 0 = true := by decide

/-- Claim C7 (amended): with a finite budget of at least 2 (or the infinite
sentinel) and a first attempt that succeeds, `wait_vfsmount` returns true
immediately; a budget of 0 or 1 or a NULL path yields immediate false with
no attempt performed; and a false result with a finite budget means every
attempt performed (the budget minus one of them) failed. -/
theorem C7_mount_wait_budget :
    (∀ (avail : Nat → Bool) (n fuel : Nat), 2 ≤ n → 1 ≤ fuel → avail 0 = true →
        wait_vfsmount false avail n fuel = some true)
    ∧ (∀ (avail : Nat → Bool) (n fuel : Nat), n ≤ 1 → 1 ≤ fuel →
        wait_vfsmount false avail n fuel = some false)
    ∧ (∀ (avail : Nat → Bool) (n fuel : Nat), wait_vfsmount true avail n fuel = some false)
    ∧ (∀ (avail : Nat → Bool) (n fuel : Nat), n < INFINITY →
        wait_vfsmount false avail n fuel = some false → ∀ i, i + 1 < n → avail i = false) := by
  refine ⟨?_, ?_, ?_, ?_⟩
  · intro avail n fuel h2 hf ha
    obtain ⟨fu, rfl⟩ : ∃ k, fuel = k + 1 := ⟨fuel - 1, by omega⟩
    simp only [wait_vfsmount, if_neg (by decide : ¬(false = true)), wv_loop]
    rw [count_down_two_le n h2]
    simp [ha]
  · intro avail n fuel h1 hf
    obtain ⟨fu, rfl⟩ : ∃ k, fuel = k + 1 := ⟨fuel - 1, by omega⟩
    simp only [wait_vfsmount, if_neg (by decide : ¬(false = true)), wv_loop]
    have hr : (count_down n 1).1 = false := by
      match n, h1 with
      | 0, _ => rfl
      | 1, _ => rfl
    rw [hr]
    simp
  · intro avail n fuel
    rfl
  · intro avail n fuel hn h i hi
    have := wv_loop_false_all_fail avail fuel n 0 hn (by simpa [wait_vfsmount] using h) i hi
    simpa using this

/-- Claim C8, counterexample: the persisted pattern `2 ^ 64 - 1` reads as
signed epoch `-1`; against ticker reading 0 the validation pass accepts it
(no persist scheduled), leaving a negative live epoch. -/
theorem C8_negative_epoch_passes_validation :
    ts_read_stamp ⟨true, true, 8, ⟨W - 1⟩, some (fun _ => 0)⟩ ⟨0⟩ = (⟨W - 1⟩, false)
    ∧ toSigned (W - 1) < 0 := by decide

/-- Claim C8 (amended): after a recovery run whose validation pass accepts
the record (no persist scheduled), the signed live epoch is at most the
signed ticker reading used for validation; non-negativity is not
guaranteed. -/
theorem C8_validated_epoch_le_ticker (g0 : tick_stamp) (E : Nat) (f : Nat → Nat) (sz : Int)
    (hsz : 0 ≤ sz)
    (hacc : (ts_read_stamp ⟨true, true, sz, ⟨E⟩, some f⟩ g0).2 = false) :
    toSigned (ts_read_stamp ⟨true, true, sz, ⟨E⟩, some f⟩ g0).1.epoch ≤ toSigned (f 0) := by
  by_cases h : toSigned (f 0) < toSigned E
  · rw [ts_read_stamp_reject g0 E f sz hsz h] at hacc
    simp at hacc
  · push_neg at h
    rw [ts_read_stamp_accept g0 E f sz hsz h] at hacc ⊢
    exact h

/-- Claim C8, witness: record epoch 5 accepted against ticker reading 7. -/
theorem C8_validated_epoch_le_ticker_witness :
    (0 : Int) ≤ 8
    ∧ (ts_read_stamp ⟨true, true, 8, ⟨5⟩, some (fun _ => 7)⟩ ⟨0⟩).2 = false
    ∧ toSigned (ts_read_stamp ⟨true, true, 8, ⟨5⟩, some (fun _ => 7)⟩ ⟨0⟩).1.epoch
        ≤ toSigned 7 :=
  ⟨by decide, by decide,
    C8_validated_epoch_le_ticker ⟨0⟩ 5 (fun _ => 7) 8 (by decide) (by decide)⟩

/-- Claim C9, counterexample: two concurrent `ts_stamp` calls with deltas 1
and 2 from epoch 0, interleaved load-load-store-store, both run to
completion yet finish with epoch 2, not the exact sum 3: the update of
delta 1 is lost, because `ts_stamp` mutates the epoch without holding the
mutex. -/
theorem C9_interleaved_stamps_lose_update :
    run_stamps 1 2 [tid.t1, tid.t2, tid.t1, tid.t2] 0 task_init task_init
      = (2, ⟨some 0, true⟩, ⟨some 0, true⟩)
    ∧ (2 : Nat) ≠ (0 + 1 + 2) % W := by decide

/-- Claim C9 (amended): the epoch update of `ts_stamp` is not serialized by
the exclusive section; when the two calls happen not to interleave the
final epoch is the pre-existing value plus both deltas modulo `2 ^ 64`, but
the interleaved schedule ends at the pre-existing value plus only the
second delta, losing the first. -/
theorem C9_stamp_schedule_semantics (g d1 d2 : Nat) :
    (run_stamps d1 d2 [tid.t1, tid.t1, tid.t2, tid.t2] g task_init task_init).1
        = (g + d1 + d2) % W
    ∧ (run_stamps d1 d2 [tid.t2, tid.t2, tid.t1, tid.t1] g task_init task_init).1
        = (g + d1 + d2) % W
    ∧ (run_stamps d1 d2 [tid.t1, tid.t2, tid.t1, tid.t2] g task_init task_init).1
        = (g + d2) % W := by
  refine ⟨?_, ?_, ?_⟩ <;>
    simp only [run_stamps, stamp_step, task_init, W_eq] <;> omega

/-- Claim C10 (confirmed): `ts_get` called with a NULL output pointer
returns without writing through the pointer and leaves the accumulator
untouched. -/
theorem C10_ts_get_null_noop (g : tick_stamp) : ts_get g none = (none, g) := rfl

end Tickstamp
